import Mathlib

/-!
Shallow embedding of the Amazing31 grid-trading decision engine
(`amazing31_python.py`) and proofs about its decision logic.

Modelling conventions:
* Python floats are modelled as exact rationals (`ℚ`); `round(x, d)` is
  modelled as decimal round-half-even (`roundTo`).
* The broker is modelled by a record of facts (`Venue`) plus a success
  predicate `ok : Order → Bool` for close/delete attempts; a successful
  close/delete removes the order from the venue's book.
* The engine only ever sees `_orders()`, the book filtered to its own
  symbol/magic; the `orders` lists below are that filtered view.
* Mutating broker calls are recorded as `Action`s in the order the code
  issues them; `time.sleep(1)` is recorded as `Action.sleep1`.
-/

namespace Amazing31

/- Core marks the rational arithmetic operations irreducible, which blocks
`decide` on concrete rational goals; restore default transparency here. -/
attribute [local semireducible] Rat.add Rat.mul Rat.sub Rat.inv

/-- `OrderType` from the source (BUY=0, SELL=1, BUYSTOP=4, SELLSTOP=5). -/
inductive OrderType where
  | buy
  | sell
  | buystop
  | sellstop
deriving DecidableEq, Repr

/-- `OpenMode` from the source (BAR=1, SLEEP=2, ALWAYS=3). -/
inductive OpenMode where
  | bar
  | sleep
  | always
deriving DecidableEq, Repr

/-- The `Order` dataclass (symbol/magic omitted: order lists below are the
engine's already-filtered `_orders()` view). -/
structure Order where
  ticket : ℤ
  type : OrderType
  lots : ℚ
  open_price : ℚ
  profit : ℚ
  swap : ℚ
  commission : ℚ
  comment : String
  open_time : ℤ
deriving DecidableEq, Repr

/-- `Order.total_profit`: `profit + swap + commission`. -/
def Order.total_profit (o : Order) : ℚ :=
  o.profit + o.swap + o.commission

/-- Round-half-even on rationals: the tie-breaking used by Python `round`
(written with the executable `Rat.floor`). -/
def rhe (q : ℚ) : ℤ :=
  if q - (Rat.floor q : ℚ) < 1/2 then Rat.floor q
  else if 1/2 < q - (Rat.floor q : ℚ) then Rat.floor q + 1
  else if Rat.floor q % 2 = 0 then Rat.floor q else Rat.floor q + 1

/-- `round(x, d)` for `d ≥ 0` decimal places, on exact rationals. -/
def roundTo (d : ℕ) (x : ℚ) : ℚ :=
  (rhe (x * 10 ^ d) : ℚ) / 10 ^ d

theorem ratFloor_eq_intFloor (q : ℚ) : Rat.floor q = ⌊q⌋ := by
  rw [Rat.floor_def', ← Rat.floor_def]

theorem rhe_eq_intFloor (q : ℚ) : rhe q =
    (if q - (⌊q⌋ : ℚ) < 1/2 then ⌊q⌋
     else if 1/2 < q - (⌊q⌋ : ℚ) then ⌊q⌋ + 1
     else if ⌊q⌋ % 2 = 0 then ⌊q⌋ else ⌊q⌋ + 1) := by
  unfold rhe
  rw [ratFloor_eq_intFloor]

theorem rhe_ge_floor (q : ℚ) : ⌊q⌋ ≤ rhe q := by
  rw [rhe_eq_intFloor]
  split
  · exact le_refl _
  · split
    · exact Int.le_add_one (le_refl _)
    · split
      · exact le_refl _
      · exact Int.le_add_one (le_refl _)

theorem rhe_le_floor_add_one (q : ℚ) : rhe q ≤ ⌊q⌋ + 1 := by
  rw [rhe_eq_intFloor]
  split
  · exact Int.le_add_one (le_refl _)
  · split
    · exact le_refl _
    · split
      · exact Int.le_add_one (le_refl _)
      · exact le_refl _

/-- `rhe` overshoots its argument by at most `1/2`. -/
theorem rhe_le_add_half (q : ℚ) : (rhe q : ℚ) ≤ q + 1/2 := by
  have hfl : (⌊q⌋ : ℚ) ≤ q := Int.floor_le q
  rw [rhe_eq_intFloor]
  split
  · linarith
  · rename_i h1
    push_neg at h1
    split
    · push_cast
      linarith
    · rename_i h2
      push_neg at h2
      have heq : q - (⌊q⌋ : ℚ) = 1/2 := le_antisymm h2 h1
      split
      · linarith
      · push_cast
        linarith

/-- `rhe` undershoots its argument by at most `1/2`. -/
theorem rhe_ge_sub_half (q : ℚ) : q - 1/2 ≤ (rhe q : ℚ) := by
  have hfr : q - (⌊q⌋ : ℚ) < 1 := by
    have := Int.lt_floor_add_one q
    linarith
  rw [rhe_eq_intFloor]
  split
  · rename_i h1
    linarith
  · rename_i h1
    push_neg at h1
    split
    · push_cast
      linarith
    · split
      · linarith
      · push_cast
        linarith

theorem rhe_eq_floor_of_frac_lt {q : ℚ} (h : q - (⌊q⌋ : ℚ) < 1/2) :
    rhe q = ⌊q⌋ := by
  rw [rhe_eq_intFloor, if_pos h]

theorem rhe_eq_floor_add_one_of_frac_gt {q : ℚ} (h : 1/2 < q - (⌊q⌋ : ℚ)) :
    rhe q = ⌊q⌋ + 1 := by
  rw [rhe_eq_intFloor, if_neg (by linarith), if_pos h]

/-- Round-half-even is monotone. -/
theorem rhe_mono {a b : ℚ} (hab : a ≤ b) : rhe a ≤ rhe b := by
  rcases lt_or_eq_of_le (Int.floor_mono hab) with hf | hf
  · calc rhe a ≤ ⌊a⌋ + 1 := rhe_le_floor_add_one a
      _ ≤ ⌊b⌋ := hf
      _ ≤ rhe b := rhe_ge_floor b
  · by_cases ha : a - (⌊a⌋ : ℚ) < 1/2
    · rw [rhe_eq_floor_of_frac_lt ha, hf]
      exact rhe_ge_floor b
    · by_cases hb : 1/2 < b - (⌊b⌋ : ℚ)
      · rw [rhe_eq_floor_add_one_of_frac_gt hb, ← hf]
        exact rhe_le_floor_add_one a
      · -- both fractional parts equal 1/2, same floor: a = b
        have hfc : ((⌊a⌋ : ℚ)) = ((⌊b⌋ : ℚ)) := by exact_mod_cast hf
        push_neg at ha hb
        have hae : a = b := by linarith
        rw [hae]

/-- `roundTo` is monotone. -/
theorem roundTo_mono (d : ℕ) {x y : ℚ} (h : x ≤ y) :
    roundTo d x ≤ roundTo d y := by
  unfold roundTo
  have hp : (0 : ℚ) < 10 ^ d := by positivity
  have hm : x * 10 ^ d ≤ y * 10 ^ d := by
    exact mul_le_mul_of_nonneg_right h (le_of_lt hp)
  have := rhe_mono hm
  have hc : ((rhe (x * 10 ^ d) : ℚ)) ≤ ((rhe (y * 10 ^ d) : ℚ)) := by
    exact_mod_cast this
  exact (div_le_div_iff_of_pos_right hp).mpr hc

/-- If two `roundTo` images are strictly ordered, the smaller image is
already strictly below the larger pre-image. -/
theorem roundTo_lt_of_roundTo_lt (d : ℕ) {x y : ℚ}
    (h : roundTo d x < roundTo d y) : roundTo d x < y := by
  unfold roundTo at *
  have hp : (0 : ℚ) < 10 ^ d := by positivity
  have hint : rhe (x * 10 ^ d) < rhe (y * 10 ^ d) := by
    by_contra hcon
    push_neg at hcon
    have : ((rhe (y * 10 ^ d) : ℚ)) ≤ ((rhe (x * 10 ^ d) : ℚ)) := by exact_mod_cast hcon
    have := (div_le_div_iff_of_pos_right hp).mpr this
    linarith
  have hle : rhe (x * 10 ^ d) + 1 ≤ rhe (y * 10 ^ d) := hint
  have hub : ((rhe (y * 10 ^ d) : ℚ)) ≤ y * 10 ^ d + 1/2 := rhe_le_add_half _
  have hq : ((rhe (x * 10 ^ d) : ℚ)) + 1 ≤ ((rhe (y * 10 ^ d) : ℚ)) := by exact_mod_cast hle
  have hx : ((rhe (x * 10 ^ d) : ℚ)) < y * 10 ^ d := by linarith
  calc ((rhe (x * 10 ^ d) : ℚ)) / 10 ^ d < (y * 10 ^ d) / 10 ^ d := by
        exact (div_lt_div_iff_of_pos_right hp).mpr hx
    _ = y := by field_simp

/-- The `Config` dataclass: one field per `extern`-style parameter actually
read by the engine logic (symbol/magic identify the filtered order view and
are not repeated here). -/
structure Config where
  totals : ℕ := 50
  max_spread : ℚ := 32
  leverage_min : ℤ := 100
  close_buy_sell : Bool := true
  homeopathy_close_all : Bool := true
  homeopathy : Bool := false
  over : Bool := false
  next_time : ℤ := 0
  money : ℚ := 0
  first_step : ℚ := 30
  min_distance : ℚ := 60
  two_min_distance : ℚ := 60
  step_trail_orders : ℚ := 5
  step : ℚ := 100
  two_step : ℚ := 100
  open_mode : OpenMode := OpenMode.always
  sleep_seconds : ℤ := 30
  max_loss : ℚ := -100000
  max_loss_close_all : ℚ := -50
  lot : ℚ := 1/100
  max_lot : ℚ := 10
  plus_lot : ℚ := 0
  k_lot : ℚ := 13/10
  digits_lot : ℕ := 2
  close_all : ℚ := 1/2
  profit_by_count : Bool := true
  stop_profit : ℚ := 2
  stop_loss : ℚ := 0
  on_top_not_buy_first : ℚ := 0
  on_under_not_sell_first : ℚ := 0
  on_top_not_buy_add : ℚ := 0
  on_under_not_sell_add : ℚ := 0
  ea_start_time : String := "00:00"
  ea_stop_time : String := "24:00"
  limit_start_time : String := "00:00"
  limit_stop_time : String := "24:00"
  check_margin_for_add_orders : Bool := false

/-- Python `str.strip()` on the characters of a string (whitespace removed
from both ends). -/
def pyStrip (s : String) : List Char :=
  ((s.toList.dropWhile Char.isWhitespace).reverse.dropWhile Char.isWhitespace).reverse

/-- `Config._clean_time`: strip the string, drop all spaces, and map the
sentinel `"24:00"` to `"23:59:59"`. -/
def cleanTime (value : String) : String :=
  let s := ((pyStrip value).filter (fun c => ¬(c = ' '))).asString
  if s = "24:00" then "23:59:59" else s

/-- Negate-if-positive, as `Config.__post_init__` does to the four loss
threshold fields. -/
def coerceNonPos (x : ℚ) : ℚ :=
  if 0 < x then -x else x

/-- `Config.__post_init__`: loss thresholds are made non-positive and the
four time strings are cleaned. -/
def postInit (c : Config) : Config :=
  { c with
    max_loss_close_all := coerceNonPos c.max_loss_close_all
    max_loss := coerceNonPos c.max_loss
    stop_loss := coerceNonPos c.stop_loss
    money := coerceNonPos c.money
    ea_start_time := cleanTime c.ea_start_time
    ea_stop_time := cleanTime c.ea_stop_time
    limit_start_time := cleanTime c.limit_start_time
    limit_stop_time := cleanTime c.limit_stop_time }

/-- Split a character list at `':'` (Python `value.split(":")`). -/
def splitCols : List Char → List (List Char)
  | [] => [[]]
  | c :: cs =>
    if c = ':' then [] :: splitCols cs
    else
      match splitCols cs with
      | [] => [[c]]
      | h :: t => (c :: h) :: t

/-- Value of a non-empty all-digit character list, else `none`. -/
def digitsVal (cs : List Char) : Option ℕ :=
  match cs with
  | [] => none
  | _ =>
    cs.foldl
      (fun acc c =>
        match acc with
        | none => none
        | some n => if c.isDigit then some (n * 10 + (c.toNat - 48)) else none)
      (some 0)

/-- Python `int(s)` on a time component: optional surrounding whitespace,
optional sign, decimal digits; `none` models `ValueError`. -/
def pyInt (cs0 : List Char) : Option ℤ :=
  match ((cs0.dropWhile Char.isWhitespace).reverse.dropWhile Char.isWhitespace).reverse with
  | '-' :: rest => (digitsVal rest).map (fun n => -(n : ℤ))
  | '+' :: rest => (digitsVal rest).map (fun n => (n : ℤ))
  | cs => (digitsVal cs).map (fun n => (n : ℤ))

/-- `Amazing31._time_to_seconds`: parse `HH:MM[:SS]`, clamping each
component; any parse failure yields `0`. -/
def timeToSeconds (value : String) : ℤ :=
  match splitCols value.toList with
  | [h, m] =>
    (match pyInt h, pyInt m, pyInt ['0'] with
     | some hv, some mv, some sv =>
       max 0 (min hv 23) * 3600 + max 0 (min mv 59) * 60 + max 0 (min sv 59)
     | _, _, _ => 0)
  | [h, m, s] =>
    (match pyInt h, pyInt m, pyInt s with
     | some hv, some mv, some sv =>
       max 0 (min hv 23) * 3600 + max 0 (min mv 59) * 60 + max 0 (min sv 59)
     | _, _, _ => 0)
  | _ => 0

/-- `Amazing31._in_time_window`: the current UTC time of day (seconds since
midnight, i.e. `now_ts mod 86400`) against the parsed window, with
midnight-wrapping semantics when `start > stop`. -/
def inTimeWindow (now_ts : ℤ) (start stop : String) : Bool :=
  let cur := now_ts % 86400
  let start_s := timeToSeconds start
  let stop_s := timeToSeconds stop
  if start_s ≤ stop_s then decide (start_s ≤ cur ∧ cur ≤ stop_s)
  else decide (start_s ≤ cur ∨ cur ≤ stop_s)

/-- `Amazing31._calc_lot`: martingale sizing from the same-side filled-order
count, capped at `max_lot` and rounded to `digits_lot` places. -/
def calc_lot (cfg : Config) (side_count : ℕ) : ℚ :=
  let x : ℚ :=
    if side_count = 0 then cfg.lot
    else cfg.lot * cfg.k_lot ^ side_count + (side_count : ℚ) * cfg.plus_lot
  roundTo cfg.digits_lot (min x cfg.max_lot)

/-- Broker facts queried during one tick. -/
structure Venue where
  bid : ℚ
  ask : ℚ
  digits : ℕ
  point : ℚ
  spread_points : ℚ
  leverage : ℤ
  free_margin : ℚ
  margin_per_lot : ℚ
  trade_allowed : Bool
  expert_enabled : Bool
  stopped : Bool

/-- One mutating broker call (or one second of sleeping) issued by the
engine, in issue order. -/
inductive Action where
  | close (ticket : ℤ)
  | delete (ticket : ℤ)
  | place (kind : OrderType) (lots : ℚ) (price : ℚ) (comment : String)
  | modify (ticket : ℤ) (price : ℚ)
  | sleep1
deriving DecidableEq, Repr

/-- `Amazing31._n`: round a price to the instrument's digits. -/
def nRound (v : Venue) (x : ℚ) : ℚ := roundTo v.digits x

def insertDesc (x : ℚ) : List ℚ → List ℚ
  | [] => [x]
  | y :: ys => if y ≤ x then x :: y :: ys else y :: insertDesc x ys

/-- Descending sort (`vals.sort(reverse=True)`). -/
def sortDesc (l : List ℚ) : List ℚ := l.foldr insertDesc []

/-- The value `lizong_10` collects from one order, if any. -/
def lizong10Val (sign_mode : ℕ) (o : Order) : Option ℚ :=
  if sign_mode = 1 ∧ 0 ≤ o.profit then some o.profit
  else if sign_mode = 2 ∧ o.profit < 0 then some (-o.profit)
  else none

/-- `Amazing31.lizong_10`: sum of the `top_n` largest collected values over
orders of the given type (`none` models the `-100` wildcard). -/
def lizong10 (orders : List Order) (order_type : Option OrderType)
    (sign_mode : ℕ) (top_n : ℕ) : ℚ :=
  let vals := orders.filterMap (fun o =>
    match order_type with
    | some t => if o.type = t then lizong10Val sign_mode o else none
    | none => lizong10Val sign_mode o)
  ((sortDesc vals).take top_n).sum

/-- Python `max(l, key=f)`-style pick: first element with maximal key. -/
def pickMaxBy (f : Order → ℚ) : List Order → Option Order
  | [] => none
  | x :: xs => some (xs.foldl (fun a o => if f a < f o then o else a) x)

/-- First element with minimal key. -/
def pickMinBy (f : Order → ℚ) : List Order → Option Order
  | [] => none
  | x :: xs => some (xs.foldl (fun a o => if f o < f a then o else a) x)

/-- `Amazing31.lizong_9`: up to `count` single best-effort closes of the
most-profitable (`mode = 1`) or most-losing (`mode = 2`) order of a type.
A failed broker call aborts the loop; a skip (wrong-sign target) only
decrements the count. Returns the book left and the calls issued. -/
def lizong9 (ok : Order → Bool) (order_type : OrderType) (mode : ℕ) :
    ℕ → List Order → List Order × List Action
  | 0, orders => (orders, [])
  | count + 1, orders =>
    let pool := orders.filter (fun o => o.type = order_type)
    match (if mode = 1 then pickMaxBy Order.profit pool else pickMinBy Order.profit pool) with
    | none => (orders, [])
    | some target =>
      if mode = 1 then
        if 0 ≤ target.profit then
          if ok target then
            let next := lizong9 ok order_type mode count
              (orders.eraseP (fun o => decide (o.ticket = target.ticket)))
            (next.1, Action.close target.ticket :: next.2)
          else (orders, [Action.close target.ticket])
        else lizong9 ok order_type mode count orders
      else if mode = 2 then
        if target.profit < 0 then
          if ok target then
            let next := lizong9 ok order_type mode count
              (orders.eraseP (fun o => decide (o.ticket = target.ticket)))
            (next.1, Action.close target.ticket :: next.2)
          else (orders, [Action.close target.ticket])
        else lizong9 ok order_type mode count orders
      else (orders, [])

/-- Orders `lizong_7(side)` attempts to resolve: buys/buy-stops for sides
`1`/`0`, sells/sell-stops for sides `-1`/`0`. -/
def lizong7Targets (side : ℤ) (o : Order) : Bool :=
  match o.type with
  | OrderType.buy | OrderType.buystop => decide (side = 1 ∨ side = 0)
  | OrderType.sell | OrderType.sellstop => decide (side = -1 ∨ side = 0)

/-- Filled orders are closed, pending orders deleted. -/
def lizong7Action (o : Order) : Action :=
  match o.type with
  | OrderType.buy | OrderType.sell => Action.close o.ticket
  | OrderType.buystop | OrderType.sellstop => Action.delete o.ticket

/-- One `lizong_7` round over a book snapshot: attempts every targeted
order; returns (book left, failed-attempt count, calls issued). -/
def lizong7Round (ok : Order → Bool) (side : ℤ) :
    List Order → List Order × ℕ × List Action
  | [] => ([], 0, [])
  | o :: rest =>
    let next := lizong7Round ok side rest
    if lizong7Targets side o then
      if ok o then (next.1, next.2.1, lizong7Action o :: next.2.2)
      else (o :: next.1, next.2.1 + 1, lizong7Action o :: next.2.2)
    else (o :: next.1, next.2.1, next.2.2)

/-- The retry loop of `lizong_7` with remaining-round fuel and the current
round index (for round-dependent venue behavior). Returns
(success, rounds run, seconds slept, book left, calls issued). -/
def lizong7Aux (ok : ℕ → Order → Bool) (side : ℤ) :
    ℕ → ℕ → List Order → Bool × ℕ × ℕ × List Order × List Action
  | _, 0, orders => (false, 0, 0, orders, [])
  | i, n + 1, orders =>
    let round := lizong7Round (ok i) side orders
    if round.2.1 = 0 then (true, 1, 0, round.1, round.2.2)
    else
      let rest := lizong7Aux ok side (i + 1) n round.1
      (rest.1, rest.2.1 + 1, rest.2.2.1 + 1, rest.2.2.2.1,
        round.2.2 ++ Action.sleep1 :: rest.2.2.2.2)

/-- `Amazing31.lizong_7`: up to 10 best-effort close/delete rounds over the
requested side(s), sleeping one second after every unresolved round. -/
def lizong7 (ok : ℕ → Order → Bool) (side : ℤ) (orders : List Order) :
    Bool × ℕ × ℕ × List Order × List Action :=
  lizong7Aux ok side 0 10 orders

/-- Identifies which aggregate closing rule of `on_tick` fires. -/
inductive CloseRule where
  | overAll
  | buyTP
  | sellTP
  | homeoAll
  | mixedAll
  | stopLossAll
deriving DecidableEq, Repr

/-- The guard of the per-side take-profit block: the asymmetric
SS-suppression disjunct and both sides above `max_loss_close_all`. -/
def tpGuard (cfg : Config) (buy_profit sell_profit : ℚ)
    (buy_ss_count sell_ss_count : ℕ) : Bool :=
  (decide ((if buy_ss_count < 1 then sell_ss_count else 0) < 1)
      || !cfg.homeopathy_close_all)
  && decide (cfg.max_loss_close_all < buy_profit)
  && decide (cfg.max_loss_close_all < sell_profit)

/-- The buy-side take-profit trigger (count-scaled or flat). -/
def buyTPcond (cfg : Config) (buy_profit : ℚ) (n_buys : ℕ) : Bool :=
  (cfg.profit_by_count && decide (cfg.stop_profit * (n_buys : ℚ) < buy_profit))
  || (!cfg.profit_by_count && decide (cfg.stop_profit < buy_profit))

/-- The sell-side take-profit trigger. -/
def sellTPcond (cfg : Config) (sell_profit : ℚ) (n_sells : ℕ) : Bool :=
  (cfg.profit_by_count && decide (cfg.stop_profit * (n_sells : ℚ) < sell_profit))
  || (!cfg.profit_by_count && decide (cfg.stop_profit < sell_profit))

/-- The homeopathy close-all trigger. -/
def homeoAllCond (cfg : Config) (buy_profit sell_profit : ℚ)
    (buy_ss_count sell_ss_count : ℕ) : Bool :=
  cfg.homeopathy_close_all
  && (decide (0 < buy_ss_count) || decide (0 < sell_ss_count))
  && decide (cfg.close_all ≤ buy_profit + sell_profit)

/-- The mixed close-all trigger: aggregate profit at/above `close_all`
while one side sits at/below `max_loss_close_all`. -/
def mixedAllCond (cfg : Config) (buy_profit sell_profit : ℚ) : Bool :=
  decide (cfg.close_all ≤ buy_profit + sell_profit)
  && (decide (buy_profit ≤ cfg.max_loss_close_all)
      || decide (sell_profit ≤ cfg.max_loss_close_all))

/-- The aggregate closing cascade of `on_tick` (first match wins): over-mode
close-all, per-side take-profit, homeopathy close-all, mixed close-all,
global stop-loss. -/
def cascade (cfg : Config) (buy_profit sell_profit : ℚ) (n_buys n_sells : ℕ)
    (buy_ss_count sell_ss_count : ℕ) : Option CloseRule :=
  if cfg.over && decide (cfg.close_all ≤ buy_profit + sell_profit) then some CloseRule.overAll
  else if !cfg.over && tpGuard cfg buy_profit sell_profit buy_ss_count sell_ss_count
      && buyTPcond cfg buy_profit n_buys then some CloseRule.buyTP
  else if !cfg.over && tpGuard cfg buy_profit sell_profit buy_ss_count sell_ss_count
      && sellTPcond cfg sell_profit n_sells then some CloseRule.sellTP
  else if !cfg.over
      && homeoAllCond cfg buy_profit sell_profit buy_ss_count sell_ss_count then
    some CloseRule.homeoAll
  else if !cfg.over && mixedAllCond cfg buy_profit sell_profit then
    some CloseRule.mixedAll
  else if !decide (cfg.stop_loss = 0) && decide (buy_profit + sell_profit ≤ cfg.stop_loss) then
    some CloseRule.stopLossAll
  else none

/-- Python `max(xs, default=d)`. -/
def listMaxD (d : ℚ) : List ℚ → ℚ
  | [] => d
  | x :: xs => xs.foldl max x

/-- Python `min(xs, default=d)`. -/
def listMinD (d : ℚ) : List ℚ → ℚ
  | [] => d
  | x :: xs => xs.foldl min x

/-- The per-side dominance score of the CloseBuySell stage:
`lizong_10(type, 1, 1) - lizong_10(type, 2, 2)`. -/
def dominance (orders : List Order) (t : OrderType) : ℚ :=
  lizong10 orders (some t) 1 1 - lizong10 orders (some t) 2 2

/-- `best_buy_lot` / `best_sell_lot`: lots of the first side order whose
profit attains the side's maximum profit (default `0`). -/
def bestProfitLot (side_orders : List Order) : ℚ :=
  let best := listMaxD 0 (side_orders.map Order.profit)
  match side_orders.find? (fun o => decide (o.profit = best)) with
  | some o => o.lots
  | none => 0

/-- Outcome of the CloseBuySell imbalance-hysteresis stage. -/
structure HystResult where
  orders : List Order
  peak_buy_diff : ℚ
  peak_sell_diff : ℚ
  fired_buy : Bool
  fired_sell : Bool
  actions : List Action

/-- The per-side trigger of the CloseBuySell stage: peak (after the
max-update with the current score) positive, current score positive, side
lots positive, more than 3 side orders, and side lots above 3 × the lots
of the first order attaining the side's maximum profit plus the opposite
side's lots. `entry_side`/`opp_lots` are the tick-entry captures; `cur` is
the current book the dominance score is computed on. -/
def fireCond (entry_side : List Order) (opp_lots : ℚ) (cur : List Order)
    (t : OrderType) (pk : ℚ) : Bool :=
  decide (0 < max pk (dominance cur t)) && decide (0 < dominance cur t)
  && decide (0 < (entry_side.map Order.lots).sum)
  && decide (3 < entry_side.length)
  && decide (bestProfitLot entry_side * 3 + opp_lots
      < (entry_side.map Order.lots).sum)

/-- The two best-effort buy-side closes on trigger: most-profitable then
most-losing (`lizong_9(BUY, 1, 1)` then `lizong_9(BUY, 2, 2)`). -/
def buyCloses (ok : Order → Bool) (orders : List Order) :
    List Order × List Action :=
  let r1 := lizong9 ok OrderType.buy 1 1 orders
  let r2 := lizong9 ok OrderType.buy 2 2 r1.1
  (r2.1, r1.2 ++ r2.2)

/-- The two best-effort sell-side closes on trigger. -/
def sellCloses (ok : Order → Bool) (orders : List Order) :
    List Order × List Action :=
  let r1 := lizong9 ok OrderType.sell 1 1 orders
  let r2 := lizong9 ok OrderType.sell 2 2 r1.1
  (r2.1, r1.2 ++ r2.2)

/-- The CloseBuySell stage of `on_tick`. `orders` is the live book at stage
entry; the side lists and lot sums captured at the top of the tick coincide
with it because no close has happened yet this tick. The buy side is
evaluated first; its closes change the book the sell side's score is
computed on, and a buy-side trigger resets both peaks before the sell-side
peak is re-raised with the fresh sell score. -/
def closeBuySellStage (ok : Order → Bool) (orders : List Order)
    (peak_buy peak_sell : ℚ) : HystResult :=
  let buys := orders.filter (fun o => o.type = OrderType.buy)
  let sells := orders.filter (fun o => o.type = OrderType.sell)
  let buy_lots := (buys.map Order.lots).sum
  let sell_lots := (sells.map Order.lots).sum
  let fire_buy := fireCond buys sell_lots orders OrderType.buy peak_buy
  let orders1 := if fire_buy then (buyCloses ok orders).1 else orders
  let actsB := if fire_buy then (buyCloses ok orders).2 else []
  let pkB1 : ℚ := if fire_buy then 0 else max peak_buy (dominance orders OrderType.buy)
  let pkS1 : ℚ := if fire_buy then 0 else peak_sell
  let fire_sell := fireCond sells buy_lots orders1 OrderType.sell pkS1
  if fire_sell then
    { orders := (sellCloses ok orders1).1, peak_buy_diff := 0, peak_sell_diff := 0,
      fired_buy := fire_buy, fired_sell := true,
      actions := actsB ++ (sellCloses ok orders1).2 }
  else
    { orders := orders1, peak_buy_diff := pkB1,
      peak_sell_diff := max pkS1 (dominance orders1 OrderType.sell),
      fired_buy := fire_buy, fired_sell := false,
      actions := actsB }

/-- The gating booleans `can_buy` / `can_sell` computed at the top of
`on_tick` (time window, venue permission facts, pause timer, over-mode
empty-side rule). -/
def gateFlags (v : Venue) (cfg : Config) (pause_until now_ts : ℤ)
    (n_buys n_sells : ℕ) : Bool × Bool :=
  let c_window := inTimeWindow now_ts cfg.ea_start_time cfg.ea_stop_time
  let venueBlock : Bool :=
    decide (v.leverage < cfg.leverage_min) || !v.trade_allowed
    || !v.expert_enabled || v.stopped
    || decide (cfg.totals ≤ n_buys + n_sells)
    || decide (cfg.max_spread < v.spread_points)
  let base := c_window && !venueBlock && !(decide (now_ts < pause_until))
  (base && !(cfg.over && decide (n_buys = 0)),
   base && !(cfg.over && decide (n_sells = 0)))

/-- `Amazing31._can_afford`. -/
def canAfford (v : Venue) (cfg : Config) (lots : ℚ) : Bool :=
  if !cfg.check_margin_for_add_orders then true
  else if v.margin_per_lot ≤ 0 then true
  else decide (lots * 2 < v.free_margin / v.margin_per_lot)

/-- `Amazing31._latest_open_time`: open time of the side's highest ticket. -/
def latestOpenTime (side_orders : List Order) : ℤ :=
  (side_orders.foldl
    (fun acc o => if acc.1 < o.ticket then (o.ticket, o.open_time) else acc)
    ((-1 : ℤ), (0 : ℤ))).2

/-- `Amazing31._count_ss`. -/
def countSS (side_orders : List Order) : ℕ :=
  (side_orders.filter (fun o => o.comment = "SS")).length

/-- `Amazing31._try_open_buy`: emits at most one pending-order placement. -/
def tryOpenBuy (v : Venue) (cfg : Config) (now_ts : ℤ) (can_buy : Bool)
    (ask pt : ℚ) (buys buystops : List Order)
    (buy_profit buy_lots sell_lots buy_high buy_low : ℚ) (aggressive : Bool)
    (last_open_time : ℤ) (limit_window : Bool) : List Action :=
  if !buystops.isEmpty || decide (buy_profit ≤ cfg.max_loss) || !can_buy then []
  else if cfg.open_mode = OpenMode.sleep ∧ now_ts - last_open_time < cfg.sleep_seconds then []
  else
    let count := buys.length
    let base := if aggressive then cfg.min_distance else cfg.two_min_distance
    let step := if aggressive then cfg.step else cfg.two_step
    let px :=
      if count = 0 then nRound v (ask + cfg.first_step * pt)
      else
        let px0 := nRound v (ask + base * pt)
        if 0 < buy_low ∧ px0 < nRound v (buy_low - step * pt) then
          nRound v (ask + step * pt)
        else px0
    let countertrend : Bool :=
      decide (0 < buy_high) && decide (nRound v (buy_high + step * pt) ≤ px)
      && decide (buy_lots * 3 < sell_lots) && decide (1/5 < sell_lots - buy_lots)
    let gridCont : Bool :=
      decide (0 < buy_low) && decide (px ≤ nRound v (buy_low - step * pt))
    let homeo : Bool :=
      cfg.homeopathy && decide (0 < buy_high)
      && decide (nRound v (buy_high + cfg.step * pt) ≤ px)
      && decide (buy_lots = sell_lots)
    let cond : Bool := decide (count = 0) || countertrend || gridCont || homeo
    if !cond then []
    else
      let lots := calc_lot cfg count
      if 0 < count ∧ !canAfford v cfg lots then []
      else if 0 < count ∧ limit_window ∧ ¬(cfg.on_top_not_buy_add = 0)
          ∧ cfg.on_top_not_buy_add ≤ px then []
      else
        [Action.place OrderType.buystop lots px
          (if countertrend || homeo then "SS" else "NN")]

/-- `Amazing31._try_open_sell`: mirror image of `tryOpenBuy`. -/
def tryOpenSell (v : Venue) (cfg : Config) (now_ts : ℤ) (can_sell : Bool)
    (bid pt : ℚ) (sells sellstops : List Order)
    (sell_profit sell_lots buy_lots sell_low sell_high : ℚ) (aggressive : Bool)
    (last_open_time : ℤ) (limit_window : Bool) : List Action :=
  if !sellstops.isEmpty || decide (sell_profit ≤ cfg.max_loss) || !can_sell then []
  else if cfg.open_mode = OpenMode.sleep ∧ now_ts - last_open_time < cfg.sleep_seconds then []
  else
    let count := sells.length
    let base := if aggressive then cfg.min_distance else cfg.two_min_distance
    let step := if aggressive then cfg.step else cfg.two_step
    let px :=
      if count = 0 then nRound v (bid - cfg.first_step * pt)
      else
        let px0 := nRound v (bid - base * pt)
        if 0 < sell_high ∧ px0 < nRound v (sell_high + step * pt) then
          nRound v (bid - step * pt)
        else px0
    let countertrend : Bool :=
      decide (0 < sell_low) && decide (px ≤ nRound v (sell_low - step * pt))
      && decide (sell_lots * 3 < buy_lots) && decide (1/5 < buy_lots - sell_lots)
    let gridCont : Bool :=
      decide (0 < sell_high) && decide (nRound v (sell_high + step * pt) ≤ px)
    let homeo : Bool :=
      cfg.homeopathy && decide (0 < sell_low)
      && decide (px ≤ nRound v (sell_low - cfg.step * pt))
      && decide (buy_lots = sell_lots)
    let cond : Bool := decide (count = 0) || countertrend || gridCont || homeo
    if !cond then []
    else
      let lots := calc_lot cfg count
      if 0 < count ∧ !canAfford v cfg lots then []
      else if 0 < count ∧ limit_window ∧ ¬(cfg.on_under_not_sell_add = 0)
          ∧ px ≤ cfg.on_under_not_sell_add then []
      else
        [Action.place OrderType.sellstop lots px
          (if countertrend || homeo then "SS" else "NN")]

/-- `Amazing31._trail_pending_buy`: pull the highest buy-stop toward the
market when it is more than `step_trail_orders` points away from the
would-be opening price and the move respects the grid buffers. -/
def trailPendingBuy (v : Venue) (cfg : Config) (can_buy : Bool) (ask pt : ℚ)
    (buy_count : ℕ) (aggressive : Bool) (buy_high buy_low : ℚ)
    (buystops : List Order) : List Action :=
  if !can_buy || buystops.isEmpty then []
  else
    match pickMaxBy Order.open_price buystops with
    | none => []
    | some pending =>
      let dist := if buy_count = 0 then cfg.first_step
                  else if aggressive then cfg.min_distance else cfg.two_min_distance
      let px := nRound v (ask + dist * pt)
      if px < nRound v (pending.open_price - cfg.step_trail_orders * pt) then
        let step := if aggressive then cfg.step else cfg.two_step
        if buy_low = 0 ∨ px ≤ nRound v (buy_low - step * pt)
            ∨ nRound v (buy_high + step * pt) ≤ px then
          [Action.modify pending.ticket px]
        else []
      else []

/-- `Amazing31._trail_pending_sell`: mirror image of `trailPendingBuy`. -/
def trailPendingSell (v : Venue) (cfg : Config) (can_sell : Bool) (bid pt : ℚ)
    (sell_count : ℕ) (aggressive : Bool) (sell_low sell_high : ℚ)
    (sellstops : List Order) : List Action :=
  if !can_sell || sellstops.isEmpty then []
  else
    match pickMinBy Order.open_price sellstops with
    | none => []
    | some pending =>
      let dist := if sell_count = 0 then cfg.first_step
                  else if aggressive then cfg.min_distance else cfg.two_min_distance
      let px := nRound v (bid - dist * pt)
      if nRound v (pending.open_price + cfg.step_trail_orders * pt) < px then
        let step := if aggressive then cfg.step else cfg.two_step
        if sell_high = 0 ∨ nRound v (sell_high + step * pt) ≤ px
            ∨ px ≤ nRound v (sell_low - step * pt) then
          [Action.modify pending.ticket px]
        else []
      else []

/-- The `State` dataclass. -/
structure State where
  pause_until : ℤ := 0
  last_bar_time : ℤ := 0
  peak_buy_diff : ℚ := 0
  peak_sell_diff : ℚ := 0
deriving DecidableEq, Repr

/-- `Amazing31.on_tick` as a pure function from the venue snapshot,
configuration, engine state and filtered book to the new engine state and
the broker calls issued this tick. `ok` decides close/delete success. -/
def onTick (ok : Order → Bool) (v : Venue) (cfg : Config) (st : State)
    (orders : List Order) (now_ts current_bar_ts : ℤ) : State × List Action :=
  let buys := orders.filter (fun o => o.type = OrderType.buy)
  let sells := orders.filter (fun o => o.type = OrderType.sell)
  let buystops := orders.filter (fun o => o.type = OrderType.buystop)
  let sellstops := orders.filter (fun o => o.type = OrderType.sellstop)
  let buy_profit := (buys.map Order.total_profit).sum
  let sell_profit := (sells.map Order.total_profit).sum
  let total_profit := buy_profit + sell_profit
  let buy_lots := (buys.map Order.lots).sum
  let sell_lots := (sells.map Order.lots).sum
  let buy_high := listMaxD 0 ((buys ++ buystops).map Order.open_price)
  let buy_low := listMinD 0 (buys.map Order.open_price)
  let sell_low := listMinD 0 ((sells ++ sellstops).map Order.open_price)
  let sell_high := listMaxD 0 (sells.map Order.open_price)
  let flags := gateFlags v cfg st.pause_until now_ts buys.length sells.length
  match cascade cfg buy_profit sell_profit buys.length sells.length
      (countSS buys) (countSS sells) with
  | some rule =>
    let side : ℤ :=
      match rule with
      | CloseRule.buyTP => 1
      | CloseRule.sellTP => -1
      | _ => 0
    let liq := lizong7 (fun _ => ok) side orders
    let pause' :=
      match rule with
      | CloseRule.buyTP | CloseRule.sellTP => st.pause_until
      | _ => if 0 < cfg.next_time then now_ts + cfg.next_time else st.pause_until
    ({ st with pause_until := pause' }, liq.2.2.2.2)
  | none =>
    let hyst :=
      if cfg.close_buy_sell then
        closeBuySellStage ok orders st.peak_buy_diff st.peak_sell_diff
      else
        { orders := orders, peak_buy_diff := st.peak_buy_diff,
          peak_sell_diff := st.peak_sell_diff, fired_buy := false,
          fired_sell := false, actions := [] }
    let aggressive : Bool := decide (cfg.money = 0) || decide (cfg.money < total_profit)
    let open_gate : Bool :=
      (decide (cfg.open_mode = OpenMode.bar) && decide (st.last_bar_time ≠ current_bar_ts))
      || decide (cfg.open_mode = OpenMode.sleep) || decide (cfg.open_mode = OpenMode.always)
    let limit_window := inTimeWindow now_ts cfg.limit_start_time cfg.limit_stop_time
    let openActs :=
      if open_gate then
        tryOpenBuy v cfg now_ts flags.1 v.ask v.point buys buystops buy_profit
          buy_lots sell_lots buy_high buy_low aggressive (latestOpenTime buys)
          limit_window
        ++ tryOpenSell v cfg now_ts flags.2 v.bid v.point sells sellstops
          sell_profit sell_lots buy_lots sell_low sell_high aggressive
          (latestOpenTime sells) limit_window
      else []
    let trailActs :=
      trailPendingBuy v cfg flags.1 v.ask v.point buys.length aggressive
        buy_high buy_low buystops
      ++ trailPendingSell v cfg flags.2 v.bid v.point sells.length aggressive
        sell_low sell_high sellstops
    ({ pause_until := st.pause_until,
       last_bar_time := if open_gate then current_bar_ts else st.last_bar_time,
       peak_buy_diff := hyst.peak_buy_diff,
       peak_sell_diff := hyst.peak_sell_diff },
     hyst.actions ++ openActs ++ trailActs)

theorem coerceNonPos_nonpos (x : ℚ) : coerceNonPos x ≤ 0 := by
  unfold coerceNonPos
  split
  · linarith
  · linarith

theorem coerceNonPos_idem (x : ℚ) :
    coerceNonPos (coerceNonPos x) = coerceNonPos x := by
  unfold coerceNonPos
  split
  · rw [if_neg (by linarith)]
  · rfl

/-- C6: for every timestamp and every pair of start/stop strings, window
membership holds exactly when the parsed start is at most the parsed stop
and the time of day lies in the inclusive interval, or the window wraps
midnight and the time of day is at/after start or at/before stop; and a
configured `"24:00"` is cleaned to `"23:59:59"` (86399 seconds). -/
theorem inTimeWindow_spec (now_ts : ℤ) (start stop : String) :
    (inTimeWindow now_ts start stop = true ↔
      ((timeToSeconds start ≤ timeToSeconds stop
          ∧ timeToSeconds start ≤ now_ts % 86400
          ∧ now_ts % 86400 ≤ timeToSeconds stop)
        ∨ (timeToSeconds stop < timeToSeconds start
          ∧ (timeToSeconds start ≤ now_ts % 86400
              ∨ now_ts % 86400 ≤ timeToSeconds stop))))
    ∧ cleanTime "24:00" = "23:59:59"
    ∧ timeToSeconds (cleanTime "24:00") = 86399 := by
  refine ⟨?_, by decide, by decide⟩
  unfold inTimeWindow
  by_cases h : timeToSeconds start ≤ timeToSeconds stop
  · rw [if_pos h]
    simp only [decide_eq_true_eq]
    constructor
    · intro hc
      exact Or.inl ⟨h, hc⟩
    · rintro (⟨_, hc⟩ | ⟨hlt, _⟩)
      · exact hc
      · omega
  · rw [if_neg h]
    push_neg at h
    simp only [decide_eq_true_eq]
    constructor
    · intro hc
      exact Or.inr ⟨h, hc⟩
    · rintro (⟨hle, _⟩ | ⟨_, hc⟩)
      · omega
      · exact hc

/-- C8: `__post_init__` makes the four loss-threshold fields non-positive
(negating positive inputs, keeping non-positive inputs), `stop_loss = 10`
becomes `-10` while `-10` is unchanged, and re-normalizing a constructed
configuration changes none of the four fields. -/
theorem postInit_loss_normalization (c : Config) :
    ((postInit c).max_loss ≤ 0 ∧ (postInit c).max_loss_close_all ≤ 0
      ∧ (postInit c).stop_loss ≤ 0 ∧ (postInit c).money ≤ 0)
    ∧ (0 < c.stop_loss → (postInit c).stop_loss = -c.stop_loss)
    ∧ (c.stop_loss ≤ 0 → (postInit c).stop_loss = c.stop_loss)
    ∧ (0 < c.max_loss → (postInit c).max_loss = -c.max_loss)
    ∧ (c.max_loss ≤ 0 → (postInit c).max_loss = c.max_loss)
    ∧ (0 < c.max_loss_close_all →
        (postInit c).max_loss_close_all = -c.max_loss_close_all)
    ∧ (c.max_loss_close_all ≤ 0 →
        (postInit c).max_loss_close_all = c.max_loss_close_all)
    ∧ (0 < c.money → (postInit c).money = -c.money)
    ∧ (c.money ≤ 0 → (postInit c).money = c.money)
    ∧ (postInit (postInit c)).max_loss = (postInit c).max_loss
    ∧ (postInit (postInit c)).max_loss_close_all = (postInit c).max_loss_close_all
    ∧ (postInit (postInit c)).stop_loss = (postInit c).stop_loss
    ∧ (postInit (postInit c)).money = (postInit c).money := by
  have hpos : ∀ x : ℚ, 0 < x → coerceNonPos x = -x := by
    intro x hx
    unfold coerceNonPos
    rw [if_pos hx]
  have hneg : ∀ x : ℚ, x ≤ 0 → coerceNonPos x = x := by
    intro x hx
    unfold coerceNonPos
    rw [if_neg (by linarith)]
  simp only [postInit]
  refine ⟨⟨coerceNonPos_nonpos _, coerceNonPos_nonpos _, coerceNonPos_nonpos _,
      coerceNonPos_nonpos _⟩,
    fun h => hpos _ h, fun h => hneg _ h, fun h => hpos _ h, fun h => hneg _ h,
    fun h => hpos _ h, fun h => hneg _ h, fun h => hpos _ h, fun h => hneg _ h,
    coerceNonPos_idem _, coerceNonPos_idem _, coerceNonPos_idem _,
    coerceNonPos_idem _⟩

/-- C8 witness: the round trip at `stop_loss = 10` and `stop_loss = -10` on
an otherwise-default configuration. -/
theorem postInit_loss_normalization_witness :
    (0 : ℚ) < 10 ∧ (-10 : ℚ) ≤ 0
    ∧ (postInit { stop_loss := 10 }).stop_loss = -10
    ∧ (postInit { stop_loss := -10 }).stop_loss = -10 := by
  refine ⟨by norm_num, by norm_num, ?_, ?_⟩
  · exact (postInit_loss_normalization { stop_loss := 10 }).2.1 (by norm_num)
  · have := (postInit_loss_normalization { stop_loss := -10 }).2.2.1 (by norm_num)
    rw [this]

/-- C2 (amended): when `k_lot ≥ 1`, `plus_lot ≥ 0`, `0 < lot ≤ max_lot`,
and `lot` and `max_lot` are exactly representable at `digits_lot` decimal
places, `_calc_lot` is non-decreasing in the order count, never exceeds
`max_lot`, and equals `lot` at count 0. -/
theorem calc_lot_props (cfg : Config) (hl : 0 < cfg.lot) (hk : 1 ≤ cfg.k_lot)
    (hp : 0 ≤ cfg.plus_lot) (hlm : cfg.lot ≤ cfg.max_lot)
    (hrl : roundTo cfg.digits_lot cfg.lot = cfg.lot)
    (hrm : roundTo cfg.digits_lot cfg.max_lot = cfg.max_lot) :
    (∀ n : ℕ, calc_lot cfg n ≤ calc_lot cfg (n + 1))
    ∧ (∀ n : ℕ, calc_lot cfg n ≤ cfg.max_lot)
    ∧ calc_lot cfg 0 = cfg.lot := by
  have hx : ∀ n : ℕ,
      (if n = 0 then cfg.lot else cfg.lot * cfg.k_lot ^ n + ((n : ℕ) : ℚ) * cfg.plus_lot)
      ≤ (if n + 1 = 0 then cfg.lot
         else cfg.lot * cfg.k_lot ^ (n + 1) + (((n + 1 : ℕ)) : ℚ) * cfg.plus_lot) := by
    intro n
    rcases n with _ | m
    · show cfg.lot ≤ cfg.lot * cfg.k_lot ^ 1 + ((1 : ℕ) : ℚ) * cfg.plus_lot
      rw [pow_one, Nat.cast_one, one_mul]
      have h1 : cfg.lot * 1 ≤ cfg.lot * cfg.k_lot :=
        mul_le_mul_of_nonneg_left hk (le_of_lt hl)
      rw [mul_one] at h1
      linarith
    · show cfg.lot * cfg.k_lot ^ (m + 1) + (((m + 1 : ℕ)) : ℚ) * cfg.plus_lot
        ≤ cfg.lot * cfg.k_lot ^ (m + 1 + 1) + (((m + 1 + 1 : ℕ)) : ℚ) * cfg.plus_lot
      have h2 : cfg.k_lot ^ (m + 1) ≤ cfg.k_lot ^ (m + 1 + 1) :=
        pow_le_pow_right₀ hk (Nat.le_succ _)
      have h3 : cfg.lot * cfg.k_lot ^ (m + 1) ≤ cfg.lot * cfg.k_lot ^ (m + 1 + 1) :=
        mul_le_mul_of_nonneg_left h2 (le_of_lt hl)
      have h4 : (((m + 1 : ℕ)) : ℚ) * cfg.plus_lot ≤ (((m + 1 + 1 : ℕ)) : ℚ) * cfg.plus_lot := by
        have hc : (((m + 1 : ℕ)) : ℚ) ≤ (((m + 1 + 1 : ℕ)) : ℚ) := by
          push_cast
          linarith
        exact mul_le_mul_of_nonneg_right hc hp
      linarith
  refine ⟨?_, ?_, ?_⟩
  · intro n
    exact roundTo_mono cfg.digits_lot (min_le_min (hx n) (le_refl cfg.max_lot))
  · intro n
    have h := roundTo_mono cfg.digits_lot
      (min_le_right (if n = 0 then cfg.lot
        else cfg.lot * cfg.k_lot ^ n + ((n : ℕ) : ℚ) * cfg.plus_lot) cfg.max_lot)
    rw [hrm] at h
    exact h
  · have h0 : calc_lot cfg 0 = roundTo cfg.digits_lot (min cfg.lot cfg.max_lot) := rfl
    rw [h0, min_eq_left hlm, hrl]

/-- A configuration the constructor accepts (`lot = 1 > 0`, `k_lot = 1/2`). -/
def c2Cfg : Config := { lot := 1, k_lot := 1/2 }

/-- C2 counterexample: sizing is not non-decreasing for every accepted
configuration: with `lot = 1`, `k_lot = 1/2`, the lot size at one open
order (`1/2`) is strictly below the lot size at zero orders (`1`). -/
theorem calc_lot_not_monotone :
    0 < c2Cfg.lot ∧ calc_lot c2Cfg 1 < calc_lot c2Cfg 0 := by decide

/-- C2 witness: the amended properties hold at the repository's default
configuration. -/
theorem calc_lot_props_witness :
    calc_lot ({} : Config) 0 = ({} : Config).lot
    ∧ calc_lot ({} : Config) 3 ≤ ({} : Config).max_lot
    ∧ calc_lot ({} : Config) 4 ≤ calc_lot ({} : Config) 5 := by
  have h := calc_lot_props ({} : Config) (by decide) (by decide) (by decide)
    (by decide) (by decide) (by decide)
  exact ⟨h.2.2, h.2.1 3, h.1 4⟩

/-- Number of still-targeted orders in a book. -/
def countTargeted (side : ℤ) (l : List Order) : ℕ :=
  (l.filter (lizong7Targets side)).length

theorem lizong7Round_remain (ok : Order → Bool) (side : ℤ) (l : List Order) :
    (lizong7Round ok side l).2.1 = countTargeted side (lizong7Round ok side l).1 := by
  induction l with
  | nil => rfl
  | cons o rest ih =>
    simp only [lizong7Round]
    rcases ht : lizong7Targets side o with _ | _
    · rw [if_neg (by simp [ht])]
      dsimp only
      rw [ih]
      simp [countTargeted, List.filter_cons, ht]
    · rw [if_pos rfl]
      by_cases hok : ok o = true
      · rw [if_pos hok]
        dsimp only
        exact ih
      · rw [if_neg hok]
        dsimp only
        rw [ih]
        simp [countTargeted, List.filter_cons, ht]

theorem lizong7Round_allFail (ok : Order → Bool) (side : ℤ) (l : List Order)
    (hok : ∀ o, ok o = false) :
    (lizong7Round ok side l).1 = l
    ∧ (lizong7Round ok side l).2.1 = countTargeted side l := by
  induction l with
  | nil => exact ⟨rfl, rfl⟩
  | cons o rest ih =>
    simp only [lizong7Round]
    rcases ht : lizong7Targets side o with _ | _
    · rw [if_neg (by simp [ht])]
      dsimp only
      constructor
      · rw [ih.1]
      · rw [ih.2]
        simp [countTargeted, List.filter_cons, ht]
    · rw [if_pos rfl, if_neg (by simp [hok o])]
      dsimp only
      constructor
      · rw [ih.1]
      · rw [ih.2]
        simp [countTargeted, List.filter_cons, ht]

theorem lizong7Aux_bounds (ok : ℕ → Order → Bool) (side : ℤ) :
    ∀ (n i : ℕ) (l : List Order),
      (lizong7Aux ok side i n l).2.1 ≤ n ∧ (lizong7Aux ok side i n l).2.2.1 ≤ n := by
  intro n
  induction n with
  | zero => intro i l; exact ⟨le_refl _, le_refl _⟩
  | succ m ih =>
    intro i l
    simp only [lizong7Aux]
    by_cases hr : (lizong7Round (ok i) side l).2.1 = 0
    · rw [if_pos hr]
      dsimp only
      omega
    · rw [if_neg hr]
      dsimp only
      have := ih (i + 1) (lizong7Round (ok i) side l).1
      omega

theorem lizong7Aux_succ_char (ok : ℕ → Order → Bool) (side : ℤ) :
    ∀ (n i : ℕ) (l : List Order),
      ((lizong7Aux ok side i n l).1 = true →
        countTargeted side (lizong7Aux ok side i n l).2.2.2.1 = 0)
      ∧ ((lizong7Aux ok side i n l).1 = false →
        (n = 0 ∧ (lizong7Aux ok side i n l).2.2.2.1 = l)
        ∨ 0 < countTargeted side (lizong7Aux ok side i n l).2.2.2.1) := by
  intro n
  induction n with
  | zero =>
    intro i l
    exact ⟨fun h => by simp [lizong7Aux] at h, fun _ => Or.inl ⟨rfl, rfl⟩⟩
  | succ m ih =>
    intro i l
    simp only [lizong7Aux]
    by_cases hr : (lizong7Round (ok i) side l).2.1 = 0
    · rw [if_pos hr]
      dsimp only
      refine ⟨fun _ => ?_, fun h => by simp at h⟩
      rw [← lizong7Round_remain]
      exact hr
    · rw [if_neg hr]
      dsimp only
      have hcnt : 0 < countTargeted side (lizong7Round (ok i) side l).1 := by
        rw [← lizong7Round_remain]
        omega
      have := ih (i + 1) (lizong7Round (ok i) side l).1
      refine ⟨fun h => this.1 h, fun h => ?_⟩
      rcases this.2 h with ⟨_, hrem⟩ | hpos
      · right
        rw [hrem]
        exact hcnt
      · exact Or.inr hpos

theorem lizong7Aux_allFail (ok : ℕ → Order → Bool) (side : ℤ)
    (hok : ∀ i o, ok i o = false) :
    ∀ (n i : ℕ) (l : List Order), 0 < countTargeted side l →
      (lizong7Aux ok side i n l).1 = false
      ∧ (lizong7Aux ok side i n l).2.1 = n
      ∧ (lizong7Aux ok side i n l).2.2.1 = n := by
  intro n
  induction n with
  | zero => intro i l _; exact ⟨rfl, rfl, rfl⟩
  | succ m ih =>
    intro i l hl
    have hall := lizong7Round_allFail (ok i) side l (hok i)
    simp only [lizong7Aux]
    rw [if_neg (by omega : ¬(lizong7Round (ok i) side l).2.1 = 0)]
    dsimp only
    have := ih (i + 1) (lizong7Round (ok i) side l).1 (by rw [hall.1]; exact hl)
    exact ⟨this.1, by omega, by omega⟩

/-- C5: `lizong_7` runs at most 10 rounds and sleeps at most 10 seconds; it
succeeds exactly when no targeted order remains in the book it leaves
behind; and against a venue that always fails (with at least one targeted
order present) it fails after exactly 10 rounds and 10 seconds. -/
theorem lizong7_spec (ok : ℕ → Order → Bool) (side : ℤ) (orders : List Order) :
    (lizong7 ok side orders).2.1 ≤ 10
    ∧ (lizong7 ok side orders).2.2.1 ≤ 10
    ∧ ((lizong7 ok side orders).1 = true ↔
        countTargeted side (lizong7 ok side orders).2.2.2.1 = 0)
    ∧ ((∀ i o, ok i o = false) →
        (∃ o ∈ orders, lizong7Targets side o = true) →
        (lizong7 ok side orders).1 = false
        ∧ (lizong7 ok side orders).2.1 = 10
        ∧ (lizong7 ok side orders).2.2.1 = 10) := by
  have hb := lizong7Aux_bounds ok side 10 0 orders
  have hc := lizong7Aux_succ_char ok side 10 0 orders
  refine ⟨hb.1, hb.2, ⟨hc.1, fun hz => ?_⟩, fun hok hex => ?_⟩
  · by_contra hne
    have hfalse : (lizong7 ok side orders).1 = false := by
      cases hb2 : (lizong7 ok side orders).1
      · rfl
      · exact absurd hb2 hne
    rcases hc.2 hfalse with ⟨h10, _⟩ | hpos
    · exact absurd h10 (by norm_num)
    · unfold lizong7 at hz
      omega
  · rcases hex with ⟨o, ho, hT⟩
    have hmem : o ∈ orders.filter (lizong7Targets side) :=
      List.mem_filter.mpr ⟨ho, hT⟩
    have hcnt : 0 < countTargeted side orders :=
      List.length_pos_of_mem hmem
    exact lizong7Aux_allFail ok side hok 10 0 orders hcnt

/-- C5 witness: one targeted buy order against an always-failing venue:
failure after exactly 10 rounds and 10 seconds of sleeping. -/
theorem lizong7_spec_witness :
    (lizong7 (fun _ _ => false) 0
        [{ ticket := 1, type := OrderType.buy, lots := 1, open_price := 1,
           profit := 0, swap := 0, commission := 0, comment := "",
           open_time := 0 }]).1 = false
    ∧ (lizong7 (fun _ _ => false) 0
        [{ ticket := 1, type := OrderType.buy, lots := 1, open_price := 1,
           profit := 0, swap := 0, commission := 0, comment := "",
           open_time := 0 }]).2.1 = 10
    ∧ (lizong7 (fun _ _ => false) 0
        [{ ticket := 1, type := OrderType.buy, lots := 1, open_price := 1,
           profit := 0, swap := 0, commission := 0, comment := "",
           open_time := 0 }]).2.2.1 = 10 :=
  (lizong7_spec (fun _ _ => false) 0 _).2.2.2 (fun _ _ => rfl)
    ⟨_, List.mem_singleton.mpr rfl, by decide⟩

/-- C4 counterexample: with the default configuration, buy profit 3, sell
profit 0 and one buy order, aggregate profit (3) is at/above `close_all`
(1/2) and both sides exceed `max_loss_close_all` (-50), yet the tick does
not fall through to the hysteresis/opening logic: the per-side take-profit
rule fires and returns. -/
theorem cascade_no_fallthrough :
    ({} : Config).close_all ≤ 3 + 0
    ∧ ({} : Config).max_loss_close_all < 3
    ∧ ({} : Config).max_loss_close_all < 0
    ∧ cascade ({} : Config) 3 0 1 0 0 0 = some CloseRule.buyTP := by
  refine ⟨by norm_num, by norm_num, by norm_num, by decide⟩

/-- C4 (amended): the mixed close-all rule fires only when aggregate profit
is at/above `close_all` and one side is at/below `max_loss_close_all`; it
never fires when both sides exceed `max_loss_close_all`; and when control
reaches it (not over-mode, neither take-profit branch nor the homeopathy
close-all fires) it fires exactly on that condition — a tick in the
claim's scenario falls through to hysteresis/opening only when no other
cascade rule fires. -/
theorem cascade_mixedAll_spec (cfg : Config) (bp sp : ℚ) (nb ns bss sss : ℕ) :
    (cascade cfg bp sp nb ns bss sss = some CloseRule.mixedAll →
      cfg.close_all ≤ bp + sp
      ∧ (bp ≤ cfg.max_loss_close_all ∨ sp ≤ cfg.max_loss_close_all))
    ∧ (cfg.max_loss_close_all < bp → cfg.max_loss_close_all < sp →
        cascade cfg bp sp nb ns bss sss ≠ some CloseRule.mixedAll)
    ∧ (cfg.over = false →
        (tpGuard cfg bp sp bss sss && buyTPcond cfg bp nb) = false →
        (tpGuard cfg bp sp bss sss && sellTPcond cfg sp ns) = false →
        homeoAllCond cfg bp sp bss sss = false →
        (cascade cfg bp sp nb ns bss sss = some CloseRule.mixedAll ↔
          cfg.close_all ≤ bp + sp
          ∧ (bp ≤ cfg.max_loss_close_all ∨ sp ≤ cfg.max_loss_close_all))) := by
  have key : cascade cfg bp sp nb ns bss sss = some CloseRule.mixedAll →
      cfg.close_all ≤ bp + sp
      ∧ (bp ≤ cfg.max_loss_close_all ∨ sp ≤ cfg.max_loss_close_all) := by
    intro h
    unfold cascade at h
    by_cases h1 : (cfg.over && decide (cfg.close_all ≤ bp + sp)) = true
    · rw [if_pos h1] at h
      exact absurd h (by simp)
    · rw [if_neg h1] at h
      by_cases h2 :
          (!cfg.over && tpGuard cfg bp sp bss sss && buyTPcond cfg bp nb) = true
      · rw [if_pos h2] at h
        exact absurd h (by simp)
      · rw [if_neg h2] at h
        by_cases h3 :
            (!cfg.over && tpGuard cfg bp sp bss sss && sellTPcond cfg sp ns) = true
        · rw [if_pos h3] at h
          exact absurd h (by simp)
        · rw [if_neg h3] at h
          by_cases h4 : (!cfg.over && homeoAllCond cfg bp sp bss sss) = true
          · rw [if_pos h4] at h
            exact absurd h (by simp)
          · rw [if_neg h4] at h
            by_cases h5 : (!cfg.over && mixedAllCond cfg bp sp) = true
            · have h5' := h5
              simp only [Bool.and_eq_true, mixedAllCond, Bool.or_eq_true,
                decide_eq_true_eq] at h5'
              exact h5'.2
            · rw [if_neg h5] at h
              by_cases h6 : (!decide (cfg.stop_loss = 0)
                  && decide (bp + sp ≤ cfg.stop_loss)) = true
              · rw [if_pos h6] at h
                exact absurd h (by simp)
              · rw [if_neg h6] at h
                exact absurd h (by simp)
  refine ⟨key, fun hb hs h => ?_, fun hov hbtp hstp hhom => ⟨key, ?_⟩⟩
  · rcases (key h).2 with hc | hc
    · linarith
    · linarith
  · rintro ⟨hca, hor⟩
    unfold cascade
    rw [if_neg (by rw [hov]; simp), if_neg (by rw [hov]; simp [hbtp]),
      if_neg (by rw [hov]; simp [hstp]), if_neg (by rw [hov]; simp [hhom]),
      if_pos (by
        rw [hov]
        simp only [Bool.not_false, Bool.true_and, mixedAllCond, Bool.and_eq_true,
          Bool.or_eq_true, decide_eq_true_eq]
        exact ⟨hca, hor⟩)]

/-- C4 witness: with one deeply losing buy side, profits (-60, 70), the
amended characterization yields the mixed close-all rule. -/
theorem cascade_mixedAll_spec_witness :
    cascade ({} : Config) (-60) 70 1 1 0 0 = some CloseRule.mixedAll := by
  have h := (cascade_mixedAll_spec ({} : Config) (-60) 70 1 1 0 0).2.2
    rfl (by decide) (by decide) (by decide)
  exact h.mpr ⟨by norm_num, Or.inl (by norm_num)⟩

theorem closeBuySellStage_fired_buy_eq (ok : Order → Bool) (orders : List Order)
    (pkB pkS : ℚ) :
    (closeBuySellStage ok orders pkB pkS).fired_buy
      = fireCond (orders.filter (fun o => o.type = OrderType.buy))
          (((orders.filter (fun o => o.type = OrderType.sell)).map Order.lots).sum)
          orders OrderType.buy pkB := by
  unfold closeBuySellStage
  rw [apply_ite HystResult.fired_buy]
  simp

theorem closeBuySellStage_fired_sell_eq (ok : Order → Bool) (orders : List Order)
    (pkB pkS : ℚ) :
    (closeBuySellStage ok orders pkB pkS).fired_sell
      = fireCond (orders.filter (fun o => o.type = OrderType.sell))
          (((orders.filter (fun o => o.type = OrderType.buy)).map Order.lots).sum)
          (if (closeBuySellStage ok orders pkB pkS).fired_buy
            then (buyCloses ok orders).1 else orders)
          OrderType.sell
          (if (closeBuySellStage ok orders pkB pkS).fired_buy then 0 else pkS) := by
  rw [closeBuySellStage_fired_buy_eq]
  unfold closeBuySellStage
  rw [apply_ite HystResult.fired_sell]
  by_cases hs : fireCond (orders.filter (fun o => o.type = OrderType.sell))
      (((orders.filter (fun o => o.type = OrderType.buy)).map Order.lots).sum)
      (if fireCond (orders.filter (fun o => o.type = OrderType.buy))
          (((orders.filter (fun o => o.type = OrderType.sell)).map Order.lots).sum)
          orders OrderType.buy pkB
        then (buyCloses ok orders).1 else orders)
      OrderType.sell
      (if fireCond (orders.filter (fun o => o.type = OrderType.buy))
          (((orders.filter (fun o => o.type = OrderType.sell)).map Order.lots).sum)
          orders OrderType.buy pkB
        then 0 else pkS) = true
  · rw [hs]
    simp
  · rw [Bool.not_eq_true] at hs
    rw [hs]
    simp

/-- C1 (amended): a buy-side partial close fires iff the updated peak and
current dominance score are positive, the side has positive lots and more
than 3 orders, and the side's lots exceed 3 × the lots of the FIRST
MOST-PROFITABLE order (not the largest order) plus the opposite lots; the
sell side is evaluated the same way on the book left by the buy half of
the stage, with its peak reset to zero first when the buy side fired. -/
theorem closeBuySellStage_fire_iff (ok : Order → Bool) (orders : List Order)
    (pkB pkS : ℚ) :
    ((closeBuySellStage ok orders pkB pkS).fired_buy = true ↔
      (0 < max pkB (dominance orders OrderType.buy)
        ∧ 0 < dominance orders OrderType.buy
        ∧ 0 < ((orders.filter (fun o => o.type = OrderType.buy)).map Order.lots).sum
        ∧ 3 < (orders.filter (fun o => o.type = OrderType.buy)).length
        ∧ bestProfitLot (orders.filter (fun o => o.type = OrderType.buy)) * 3
            + ((orders.filter (fun o => o.type = OrderType.sell)).map Order.lots).sum
          < ((orders.filter (fun o => o.type = OrderType.buy)).map Order.lots).sum))
    ∧ ((closeBuySellStage ok orders pkB pkS).fired_sell = true ↔
      (0 < max (if (closeBuySellStage ok orders pkB pkS).fired_buy then 0 else pkS)
          (dominance (if (closeBuySellStage ok orders pkB pkS).fired_buy
              then (buyCloses ok orders).1 else orders) OrderType.sell)
        ∧ 0 < dominance (if (closeBuySellStage ok orders pkB pkS).fired_buy
              then (buyCloses ok orders).1 else orders) OrderType.sell
        ∧ 0 < ((orders.filter (fun o => o.type = OrderType.sell)).map Order.lots).sum
        ∧ 3 < (orders.filter (fun o => o.type = OrderType.sell)).length
        ∧ bestProfitLot (orders.filter (fun o => o.type = OrderType.sell)) * 3
            + ((orders.filter (fun o => o.type = OrderType.buy)).map Order.lots).sum
          < ((orders.filter (fun o => o.type = OrderType.sell)).map Order.lots).sum)) := by
  constructor
  · rw [closeBuySellStage_fired_buy_eq]
    simp only [fireCond, Bool.and_eq_true, decide_eq_true_eq]
    tauto
  · rw [closeBuySellStage_fired_sell_eq]
    simp only [fireCond, Bool.and_eq_true, decide_eq_true_eq]
    tauto

/-- The four-buy book of the C1 scenario: the most-profitable order is
small (0.01 lots) while another order holds 0.5 lots. -/
def c1Orders : List Order :=
  [⟨1, OrderType.buy, 1/100, 1, 10, 0, 0, "", 0⟩,
   ⟨2, OrderType.buy, 1/2, 1, -1, 0, 0, "", 0⟩,
   ⟨3, OrderType.buy, 1/100, 1, -1, 0, 0, "", 0⟩,
   ⟨4, OrderType.buy, 1/100, 1, -1, 0, 0, "", 0⟩]

/-- The lot condition as the claim words it: side lots exceed 3 × the
LARGEST single order's lots plus the opposite side's lots. -/
def specLargestLotCond (side_orders : List Order) (opp_lots : ℚ) : Bool :=
  decide (listMaxD 0 (side_orders.map Order.lots) * 3 + opp_lots
      < (side_orders.map Order.lots).sum)

/-- C1 counterexample: on `c1Orders` the stage fires a buy-side partial
close although total buy lots (0.53) do not exceed 3 × the largest single
order's lots (1.5): the code uses the most-profitable order's lots (0.01). -/
theorem closeBuySellStage_fires_against_largest_lots :
    (closeBuySellStage (fun _ => true) c1Orders 0 0).fired_buy = true
    ∧ specLargestLotCond (c1Orders.filter (fun o => o.type = OrderType.buy))
        (((c1Orders.filter (fun o => o.type = OrderType.sell)).map Order.lots).sum)
      = false := by
  constructor
  · decide
  · decide

/-- C1 witness: the amended trigger condition evaluates to a firing on the
concrete `c1Orders` book. -/
theorem closeBuySellStage_fire_iff_witness :
    (closeBuySellStage (fun _ => true) c1Orders 0 0).fired_buy = true :=
  (closeBuySellStage_fire_iff (fun _ => true) c1Orders 0 0).1.mpr (by decide)

set_option maxRecDepth 4000 in
/-- C3 (amended): if the sell side fires (evaluated last), both peaks end
the stage at zero; if only the buy side fires, the buy peak ends at zero
but the sell peak is re-raised to `max 0 (fresh sell score on the
post-close book)`, which need not be zero; and on no-fire ticks each peak
is updated to the max of its previous value and the side's current score,
so it never decreases. -/
theorem closeBuySellStage_peak_evolution (ok : Order → Bool)
    (orders : List Order) (pkB pkS : ℚ) :
    ((closeBuySellStage ok orders pkB pkS).fired_sell = true →
      (closeBuySellStage ok orders pkB pkS).peak_buy_diff = 0
      ∧ (closeBuySellStage ok orders pkB pkS).peak_sell_diff = 0)
    ∧ ((closeBuySellStage ok orders pkB pkS).fired_buy = true →
        (closeBuySellStage ok orders pkB pkS).fired_sell = false →
        (closeBuySellStage ok orders pkB pkS).peak_buy_diff = 0
        ∧ (closeBuySellStage ok orders pkB pkS).peak_sell_diff
            = max 0 (dominance (buyCloses ok orders).1 OrderType.sell))
    ∧ ((closeBuySellStage ok orders pkB pkS).fired_buy = false →
        (closeBuySellStage ok orders pkB pkS).fired_sell = false →
        (closeBuySellStage ok orders pkB pkS).peak_buy_diff
            = max pkB (dominance orders OrderType.buy)
        ∧ (closeBuySellStage ok orders pkB pkS).peak_sell_diff
            = max pkS (dominance orders OrderType.sell)
        ∧ pkB ≤ (closeBuySellStage ok orders pkB pkS).peak_buy_diff
        ∧ pkS ≤ (closeBuySellStage ok orders pkB pkS).peak_sell_diff) := by
  simp only [closeBuySellStage]
  by_cases hb : fireCond (orders.filter (fun o => o.type = OrderType.buy))
      (((orders.filter (fun o => o.type = OrderType.sell)).map Order.lots).sum)
      orders OrderType.buy pkB = true
  · rw [hb]
    simp only [reduceIte]
    by_cases hs : fireCond (orders.filter (fun o => o.type = OrderType.sell))
        (((orders.filter (fun o => o.type = OrderType.buy)).map Order.lots).sum)
        (buyCloses ok orders).1 OrderType.sell 0 = true
    · rw [hs]
      simp only [reduceIte]
      refine ⟨?_, ?_, ?_⟩ <;> intros <;>
        first
          | exact absurd ‹false = true› (by simp)
          | exact absurd ‹true = false› (by simp)
          | (and_intros <;> first | rfl | trivial | exact le_max_left _ _)
    · rw [Bool.not_eq_true] at hs
      rw [hs]
      simp only [Bool.false_eq_true, if_false]
      refine ⟨?_, ?_, ?_⟩ <;> intros <;>
        first
          | exact absurd ‹false = true› (by simp)
          | exact absurd ‹true = false› (by simp)
          | (and_intros <;> first | rfl | trivial | exact le_max_left _ _)
  · rw [Bool.not_eq_true] at hb
    rw [hb]
    simp only [Bool.false_eq_true, if_false]
    by_cases hs : fireCond (orders.filter (fun o => o.type = OrderType.sell))
        (((orders.filter (fun o => o.type = OrderType.buy)).map Order.lots).sum)
        orders OrderType.sell pkS = true
    · rw [hs]
      simp only [reduceIte]
      refine ⟨?_, ?_, ?_⟩ <;> intros <;>
        first
          | exact absurd ‹false = true› (by simp)
          | exact absurd ‹true = false› (by simp)
          | (and_intros <;> first | rfl | trivial | exact le_max_left _ _)
    · rw [Bool.not_eq_true] at hs
      rw [hs]
      simp only [Bool.false_eq_true, if_false]
      refine ⟨?_, ?_, ?_⟩ <;> intros <;>
        first
          | exact absurd ‹false = true› (by simp)
          | exact absurd ‹true = false› (by simp)
          | (and_intros <;> first | rfl | trivial | exact le_max_left _ _)

/-- The C3 scenario book: `c1Orders` plus one profitable sell. -/
def c3Orders : List Order :=
  c1Orders ++ [⟨5, OrderType.sell, 1/100, 1, 5, 0, 0, "", 0⟩]

/-- C3 counterexample: on `c3Orders` the buy side fires a hysteresis
partial close, yet at the end of the stage the sell peak is 5, not zero:
after the reset, the sell-side max-update re-raises it with the fresh
sell score before the tick ends. -/
theorem closeBuySellStage_peaks_not_both_zero :
    (closeBuySellStage (fun _ => true) c3Orders 0 0).fired_buy = true
    ∧ ¬((closeBuySellStage (fun _ => true) c3Orders 0 0).peak_sell_diff = 0) := by
  constructor
  · decide
  · decide

/-- C3 witness: a no-fire tick (empty book, peaks 1 and 2) keeps both
peaks at their previous values. -/
theorem closeBuySellStage_peak_evolution_witness :
    (closeBuySellStage (fun _ => true) [] 1 2).peak_buy_diff = max 1 0
    ∧ (closeBuySellStage (fun _ => true) [] 1 2).peak_sell_diff = max 2 0 := by
  have h := (closeBuySellStage_peak_evolution (fun _ => true) [] 1 2).2.2
    (by decide) (by decide)
  exact ⟨h.1, h.2.1⟩

/-- Symmetric to `roundTo_lt_of_roundTo_lt`: the larger pre-image is
already strictly above the smaller image. -/
theorem lt_roundTo_of_roundTo_lt (d : ℕ) {x y : ℚ}
    (h : roundTo d x < roundTo d y) : x < roundTo d y := by
  unfold roundTo at *
  have hp : (0 : ℚ) < 10 ^ d := by positivity
  have hint : rhe (x * 10 ^ d) < rhe (y * 10 ^ d) := by
    by_contra hcon
    push_neg at hcon
    have hq : ((rhe (y * 10 ^ d) : ℚ)) ≤ ((rhe (x * 10 ^ d) : ℚ)) := by exact_mod_cast hcon
    have := (div_le_div_iff_of_pos_right hp).mpr hq
    linarith
  have hle : rhe (x * 10 ^ d) + 1 ≤ rhe (y * 10 ^ d) := hint
  have hlb : x * 10 ^ d - 1/2 ≤ ((rhe (x * 10 ^ d) : ℚ)) := rhe_ge_sub_half _
  have hq : ((rhe (x * 10 ^ d) : ℚ)) + 1 ≤ ((rhe (y * 10 ^ d) : ℚ)) := by exact_mod_cast hle
  have hx : x * 10 ^ d < ((rhe (y * 10 ^ d) : ℚ)) := by linarith
  have := (div_lt_div_iff_of_pos_right hp).mpr hx
  calc x = (x * 10 ^ d) / 10 ^ d := by field_simp
    _ < ((rhe (y * 10 ^ d) : ℚ)) / 10 ^ d := this

/-- C9: whenever the opening stage places a pending order for a side with
zero filled and zero pending orders (so the side extremes default to 0),
the placed order is a stop at the entry price plus/minus
`first_step × point`, rounded to the instrument digits, with lot size
`_calc_lot(0)` and tag `"NN"`. -/
theorem tryOpen_first_order_spec (v : Venue) (cfg : Config) (now_ts : ℤ)
    (can_buy can_sell : Bool) (ask bid pt : ℚ)
    (buy_profit sell_profit buy_lots sell_lots : ℚ) (aggressive : Bool)
    (lo ls : ℤ) (lw : Bool) :
    (tryOpenBuy v cfg now_ts can_buy ask pt [] [] buy_profit buy_lots
        sell_lots 0 0 aggressive lo lw = []
      ∨ tryOpenBuy v cfg now_ts can_buy ask pt [] [] buy_profit buy_lots
        sell_lots 0 0 aggressive lo lw
        = [Action.place OrderType.buystop (calc_lot cfg 0)
            (nRound v (ask + cfg.first_step * pt)) "NN"])
    ∧ (tryOpenSell v cfg now_ts can_sell bid pt [] [] sell_profit sell_lots
        buy_lots 0 0 aggressive ls lw = []
      ∨ tryOpenSell v cfg now_ts can_sell bid pt [] [] sell_profit sell_lots
        buy_lots 0 0 aggressive ls lw
        = [Action.place OrderType.sellstop (calc_lot cfg 0)
            (nRound v (bid - cfg.first_step * pt)) "NN"]) := by
  constructor
  · unfold tryOpenBuy
    by_cases h1 : (!([] : List Order).isEmpty
        || decide (buy_profit ≤ cfg.max_loss) || !can_buy) = true
    · rw [if_pos h1]
      exact Or.inl rfl
    · rw [if_neg h1]
      by_cases h2 : cfg.open_mode = OpenMode.sleep
          ∧ now_ts - lo < cfg.sleep_seconds
      · rw [if_pos h2]
        exact Or.inl rfl
      · rw [if_neg h2]
        right
        simp
  · unfold tryOpenSell
    by_cases h1 : (!([] : List Order).isEmpty
        || decide (sell_profit ≤ cfg.max_loss) || !can_sell) = true
    · rw [if_pos h1]
      exact Or.inl rfl
    · rw [if_neg h1]
      by_cases h2 : cfg.open_mode = OpenMode.sleep
          ∧ now_ts - ls < cfg.sleep_seconds
      · rw [if_pos h2]
        exact Or.inl rfl
      · rw [if_neg h2]
        right
        simp

/-- C10: whenever the trailing stage requests a price modification, the
modified pending is the side's most-advanced pending, and the new price
improves on its current price by strictly more than
`step_trail_orders × point`; when that trailing distance is non-negative
the new buy-stop price is strictly below (sell-stop strictly above) the
pending's current price. -/
theorem trailPending_spec (v : Venue) (cfg : Config) (can_buy can_sell : Bool)
    (ask bid pt : ℚ) (nb ns : ℕ) (aggressive : Bool)
    (buy_high buy_low sell_low sell_high : ℚ)
    (buystops sellstops : List Order) (t : ℤ) (px : ℚ) :
    (trailPendingBuy v cfg can_buy ask pt nb aggressive buy_high buy_low
        buystops = [Action.modify t px] →
      ∃ p, pickMaxBy Order.open_price buystops = some p ∧ t = p.ticket
        ∧ cfg.step_trail_orders * pt < p.open_price - px
        ∧ (0 ≤ cfg.step_trail_orders * pt → px < p.open_price))
    ∧ (trailPendingSell v cfg can_sell bid pt ns aggressive sell_low sell_high
        sellstops = [Action.modify t px] →
      ∃ p, pickMinBy Order.open_price sellstops = some p ∧ t = p.ticket
        ∧ cfg.step_trail_orders * pt < px - p.open_price
        ∧ (0 ≤ cfg.step_trail_orders * pt → p.open_price < px)) := by
  constructor
  · intro h
    simp only [trailPendingBuy] at h
    by_cases h0 : (!can_buy || buystops.isEmpty) = true
    · rw [if_pos h0] at h
      simp at h
    · rw [if_neg h0] at h
      cases hp : pickMaxBy Order.open_price buystops with
      | none =>
        rw [hp] at h
        simp at h
      | some pending =>
        rw [hp] at h
        dsimp only at h
        by_cases hg : nRound v (ask + (if nb = 0 then cfg.first_step
              else if aggressive = true then cfg.min_distance
              else cfg.two_min_distance) * pt)
            < nRound v (pending.open_price - cfg.step_trail_orders * pt)
        · rw [if_pos hg] at h
          by_cases hc : (buy_low = 0
              ∨ nRound v (ask + (if nb = 0 then cfg.first_step
                  else if aggressive = true then cfg.min_distance
                  else cfg.two_min_distance) * pt)
                ≤ nRound v (buy_low
                    - (if aggressive = true then cfg.step else cfg.two_step) * pt)
              ∨ nRound v (buy_high
                    + (if aggressive = true then cfg.step else cfg.two_step) * pt)
                ≤ nRound v (ask + (if nb = 0 then cfg.first_step
                    else if aggressive = true then cfg.min_distance
                    else cfg.two_min_distance) * pt))
          · rw [if_pos hc] at h
            injection h with h1 h2
            injection h1 with hticket hpx
            have hlt := roundTo_lt_of_roundTo_lt v.digits hg
            refine ⟨pending, rfl, hticket.symm, ?_, ?_⟩
            · rw [← hpx]
              unfold nRound
              linarith
            · intro hnn
              rw [← hpx]
              unfold nRound
              linarith
          · rw [if_neg hc] at h
            simp at h
        · rw [if_neg hg] at h
          simp at h
  · intro h
    simp only [trailPendingSell] at h
    by_cases h0 : (!can_sell || sellstops.isEmpty) = true
    · rw [if_pos h0] at h
      simp at h
    · rw [if_neg h0] at h
      cases hp : pickMinBy Order.open_price sellstops with
      | none =>
        rw [hp] at h
        simp at h
      | some pending =>
        rw [hp] at h
        dsimp only at h
        by_cases hg : nRound v (pending.open_price + cfg.step_trail_orders * pt)
            < nRound v (bid - (if ns = 0 then cfg.first_step
                else if aggressive = true then cfg.min_distance
                else cfg.two_min_distance) * pt)
        · rw [if_pos hg] at h
          by_cases hc : (sell_high = 0
              ∨ nRound v (sell_high
                    + (if aggressive = true then cfg.step else cfg.two_step) * pt)
                ≤ nRound v (bid - (if ns = 0 then cfg.first_step
                    else if aggressive = true then cfg.min_distance
                    else cfg.two_min_distance) * pt)
              ∨ nRound v (bid - (if ns = 0 then cfg.first_step
                    else if aggressive = true then cfg.min_distance
                    else cfg.two_min_distance) * pt)
                ≤ nRound v (sell_low
                    - (if aggressive = true then cfg.step else cfg.two_step) * pt))
          · rw [if_pos hc] at h
            injection h with h1 h2
            injection h1 with hticket hpx
            have hlt := lt_roundTo_of_roundTo_lt v.digits hg
            refine ⟨pending, rfl, hticket.symm, ?_, ?_⟩
            · rw [← hpx]
              unfold nRound
              linarith
            · intro hnn
              rw [← hpx]
              unfold nRound
              linarith
          · rw [if_neg hc] at h
            simp at h
        · rw [if_neg hg] at h
          simp at h

/-- C10 witness: a concrete trailing tick (ask 1, one buy-stop pending at
1.4, trail step 5 points of 0.01) issues a modification to 1.3, which is
0.1 > 0.05 below the pending price. -/
theorem trailPending_spec_witness :
    trailPendingBuy
        { bid := 1, ask := 1, digits := 2, point := 1/100, spread_points := 0,
          leverage := 500, free_margin := 1000, margin_per_lot := 0,
          trade_allowed := true, expert_enabled := true, stopped := false }
        ({} : Config) true 1 (1/100) 0 true 0 0
        [⟨7, OrderType.buystop, 1/100, 7/5, 0, 0, 0, "NN", 0⟩]
      = [Action.modify 7 (13/10)]
    ∧ ({} : Config).step_trail_orders * (1/100 : ℚ) < 7/5 - 13/10
    ∧ (13/10 : ℚ) < 7/5 := by
  have heq : trailPendingBuy
      { bid := 1, ask := 1, digits := 2, point := 1/100, spread_points := 0,
        leverage := 500, free_margin := 1000, margin_per_lot := 0,
        trade_allowed := true, expert_enabled := true, stopped := false }
      ({} : Config) true 1 (1/100) 0 true 0 0
      [⟨7, OrderType.buystop, 1/100, 7/5, 0, 0, 0, "NN", 0⟩]
      = [Action.modify 7 (13/10)] := by decide
  have h := (trailPending_spec
      { bid := 1, ask := 1, digits := 2, point := 1/100, spread_points := 0,
        leverage := 500, free_margin := 1000, margin_per_lot := 0,
        trade_allowed := true, expert_enabled := true, stopped := false }
      ({} : Config) true true 1 1 (1/100) 0 0 true 0 0 0 0
      [⟨7, OrderType.buystop, 1/100, 7/5, 0, 0, 0, "NN", 0⟩] []
      7 (13/10)).1 heq
  obtain ⟨p, hp, _, hgap, hbelow⟩ := h
  have hpe : p = ⟨7, OrderType.buystop, 1/100, 7/5, 0, 0, 0, "NN", 0⟩ := by
    simp [pickMaxBy] at hp
    exact hp.symm
  refine ⟨heq, ?_, ?_⟩
  · rw [hpe] at hgap
    simpa using hgap
  · have := hbelow (by decide)
    rw [hpe] at this
    simpa using this

/-- Does a broker call place or reprice a pending order? -/
def isOpenAct : Action → Bool
  | Action.place _ _ _ _ => true
  | Action.modify _ _ => true
  | _ => false

theorem isOpenAct_lizong7Action (o : Order) : isOpenAct (lizong7Action o) = false := by
  unfold lizong7Action
  cases o.type <;> rfl

theorem lizong9_actions (ok : Order → Bool) (t : OrderType) (mode : ℕ) :
    ∀ (count : ℕ) (orders : List Order),
      ∀ a ∈ (lizong9 ok t mode count orders).2, isOpenAct a = false := by
  intro count
  induction count with
  | zero =>
    intro orders a ha
    simp [lizong9] at ha
  | succ c ih =>
    intro orders a ha
    simp only [lizong9] at ha
    split at ha
    · simp at ha
    · split at ha
      · split at ha
        · split at ha
          · dsimp only at ha
            rcases List.mem_cons.mp ha with rfl | hmem
            · rfl
            · exact ih _ a hmem
          · dsimp only at ha
            rcases List.mem_cons.mp ha with rfl | hmem
            · rfl
            · simp at hmem
        · exact ih _ a ha
      · split at ha
        · split at ha
          · split at ha
            · dsimp only at ha
              rcases List.mem_cons.mp ha with rfl | hmem
              · rfl
              · exact ih _ a hmem
            · dsimp only at ha
              rcases List.mem_cons.mp ha with rfl | hmem
              · rfl
              · simp at hmem
          · exact ih _ a ha
        · simp at ha

theorem buyCloses_actions (ok : Order → Bool) (orders : List Order) :
    ∀ a ∈ (buyCloses ok orders).2, isOpenAct a = false := by
  intro a ha
  unfold buyCloses at ha
  rcases List.mem_append.mp ha with hm | hm
  · exact lizong9_actions ok OrderType.buy 1 1 orders a hm
  · exact lizong9_actions ok OrderType.buy 2 2 _ a hm

theorem sellCloses_actions (ok : Order → Bool) (orders : List Order) :
    ∀ a ∈ (sellCloses ok orders).2, isOpenAct a = false := by
  intro a ha
  unfold sellCloses at ha
  rcases List.mem_append.mp ha with hm | hm
  · exact lizong9_actions ok OrderType.sell 1 1 orders a hm
  · exact lizong9_actions ok OrderType.sell 2 2 _ a hm

theorem lizong7Round_actions (ok : Order → Bool) (side : ℤ) :
    ∀ (l : List Order), ∀ a ∈ (lizong7Round ok side l).2.2, isOpenAct a = false := by
  intro l
  induction l with
  | nil =>
    intro a ha
    simp [lizong7Round] at ha
  | cons o rest ih =>
    intro a ha
    simp only [lizong7Round] at ha
    split at ha
    · split at ha
      · dsimp only at ha
        rcases List.mem_cons.mp ha with rfl | hmem
        · exact isOpenAct_lizong7Action o
        · exact ih a hmem
      · dsimp only at ha
        rcases List.mem_cons.mp ha with rfl | hmem
        · exact isOpenAct_lizong7Action o
        · exact ih a hmem
    · exact ih a ha

theorem lizong7Aux_actions (ok : ℕ → Order → Bool) (side : ℤ) :
    ∀ (n i : ℕ) (l : List Order),
      ∀ a ∈ (lizong7Aux ok side i n l).2.2.2.2, isOpenAct a = false := by
  intro n
  induction n with
  | zero =>
    intro i l a ha
    simp [lizong7Aux] at ha
  | succ m ih =>
    intro i l a ha
    simp only [lizong7Aux] at ha
    split at ha
    · exact lizong7Round_actions (ok i) side l a ha
    · dsimp only at ha
      rcases List.mem_append.mp ha with hm | hm
      · exact lizong7Round_actions (ok i) side l a hm
      · rcases List.mem_cons.mp hm with rfl | hmem
        · rfl
        · exact ih (i + 1) _ a hmem

set_option maxRecDepth 4000 in
theorem closeBuySellStage_actions (ok : Order → Bool) (orders : List Order)
    (pkB pkS : ℚ) :
    ∀ a ∈ (closeBuySellStage ok orders pkB pkS).actions, isOpenAct a = false := by
  intro a ha
  simp only [closeBuySellStage] at ha
  by_cases hb : fireCond (orders.filter (fun o => o.type = OrderType.buy))
      (((orders.filter (fun o => o.type = OrderType.sell)).map Order.lots).sum)
      orders OrderType.buy pkB = true
  · rw [hb] at ha
    simp only [reduceIte] at ha
    by_cases hs : fireCond (orders.filter (fun o => o.type = OrderType.sell))
        (((orders.filter (fun o => o.type = OrderType.buy)).map Order.lots).sum)
        (buyCloses ok orders).1 OrderType.sell 0 = true
    · rw [hs] at ha
      simp only [reduceIte] at ha
      rcases List.mem_append.mp ha with hm | hm
      · exact buyCloses_actions ok orders a hm
      · exact sellCloses_actions ok _ a hm
    · rw [Bool.not_eq_true] at hs
      rw [hs] at ha
      simp only [Bool.false_eq_true, if_false] at ha
      exact buyCloses_actions ok orders a ha
  · rw [Bool.not_eq_true] at hb
    rw [hb] at ha
    simp only [Bool.false_eq_true, if_false] at ha
    by_cases hs : fireCond (orders.filter (fun o => o.type = OrderType.sell))
        (((orders.filter (fun o => o.type = OrderType.buy)).map Order.lots).sum)
        orders OrderType.sell pkS = true
    · rw [hs] at ha
      simp only [reduceIte] at ha
      exact sellCloses_actions ok orders a ha
    · rw [Bool.not_eq_true] at hs
      rw [hs] at ha
      simp only [Bool.false_eq_true, if_false] at ha
      simp at ha

theorem gateFlags_paused (v : Venue) (cfg : Config) (pu now_ts : ℤ)
    (nb ns : ℕ) (h : now_ts < pu) :
    gateFlags v cfg pu now_ts nb ns = (false, false) := by
  unfold gateFlags
  rw [decide_eq_true h]
  simp

theorem tryOpenBuy_not_can (v : Venue) (cfg : Config) (now_ts : ℤ)
    (ask pt : ℚ) (buys buystops : List Order)
    (bp bl sl bh blo : ℚ) (ag : Bool) (lo : ℤ) (lw : Bool) :
    tryOpenBuy v cfg now_ts false ask pt buys buystops bp bl sl bh blo ag lo lw
      = [] := by
  unfold tryOpenBuy
  rw [if_pos (by simp)]

theorem tryOpenSell_not_can (v : Venue) (cfg : Config) (now_ts : ℤ)
    (bid pt : ℚ) (sells sellstops : List Order)
    (sp sl bl slo sh : ℚ) (ag : Bool) (lo : ℤ) (lw : Bool) :
    tryOpenSell v cfg now_ts false bid pt sells sellstops sp sl bl slo sh ag lo lw
      = [] := by
  unfold tryOpenSell
  rw [if_pos (by simp)]

theorem trailPendingBuy_not_can (v : Venue) (cfg : Config) (ask pt : ℚ)
    (nb : ℕ) (ag : Bool) (bh blo : ℚ) (buystops : List Order) :
    trailPendingBuy v cfg false ask pt nb ag bh blo buystops = [] := by
  unfold trailPendingBuy
  rw [if_pos (by simp)]

theorem trailPendingSell_not_can (v : Venue) (cfg : Config) (bid pt : ℚ)
    (ns : ℕ) (ag : Bool) (slo sh : ℚ) (sellstops : List Order) :
    trailPendingSell v cfg false bid pt ns ag slo sh sellstops = [] := by
  unfold trailPendingSell
  rw [if_pos (by simp)]

/-- C7: on a paused tick (`now < pauseUntil`) both gating booleans are
false regardless of all other venue facts, book and configuration, and the
tick issues no pending-order placement and no pending-order price
modification (only closes, deletes and sleeps can occur). -/
theorem onTick_paused_no_open (ok : Order → Bool) (v : Venue) (cfg : Config)
    (st : State) (orders : List Order) (now_ts current_bar_ts : ℤ)
    (hp : now_ts < st.pause_until) :
    gateFlags v cfg st.pause_until now_ts
        (orders.filter (fun o => o.type = OrderType.buy)).length
        (orders.filter (fun o => o.type = OrderType.sell)).length
      = (false, false)
    ∧ ∀ a ∈ (onTick ok v cfg st orders now_ts current_bar_ts).2,
        isOpenAct a = false := by
  have hflag := gateFlags_paused v cfg st.pause_until now_ts
    (orders.filter (fun o => o.type = OrderType.buy)).length
    (orders.filter (fun o => o.type = OrderType.sell)).length hp
  refine ⟨hflag, ?_⟩
  intro a ha
  simp only [onTick] at ha
  rw [hflag] at ha
  split at ha
  · exact lizong7Aux_actions _ _ 10 0 orders a ha
  · rw [tryOpenBuy_not_can, tryOpenSell_not_can, trailPendingBuy_not_can,
      trailPendingSell_not_can] at ha
    simp only [List.append_nil, List.nil_append, ite_self] at ha
    by_cases hcbs : cfg.close_buy_sell = true
    · rw [hcbs] at ha
      simp only [reduceIte] at ha
      exact closeBuySellStage_actions ok orders st.peak_buy_diff
        st.peak_sell_diff a ha
    · rw [Bool.not_eq_true] at hcbs
      rw [hcbs] at ha
      simp only [Bool.false_eq_true, if_false] at ha
      simp at ha

/-- C7 witness: a concrete paused tick (pause until 100, now 50) with one
buy order issues no placement or modification. -/
theorem onTick_paused_no_open_witness :
    (50 : ℤ) < 100
    ∧ (∀ a ∈ (onTick (fun _ => true)
        { bid := 1, ask := 1, digits := 2, point := 1/100, spread_points := 0,
          leverage := 500, free_margin := 1000, margin_per_lot := 0,
          trade_allowed := true, expert_enabled := true, stopped := false }
        ({} : Config)
        { pause_until := 100, last_bar_time := 0, peak_buy_diff := 0,
          peak_sell_diff := 0 }
        [⟨1, OrderType.buy, 1/100, 1, 0, 0, 0, "NN", 0⟩] 50 0).2,
        isOpenAct a = false) :=
  ⟨by norm_num,
    (onTick_paused_no_open (fun _ => true)
      { bid := 1, ask := 1, digits := 2, point := 1/100, spread_points := 0,
        leverage := 500, free_margin := 1000, margin_per_lot := 0,
        trade_allowed := true, expert_enabled := true, stopped := false }
      ({} : Config)
      { pause_until := 100, last_bar_time := 0, peak_buy_diff := 0,
        peak_sell_diff := 0 }
      [⟨1, OrderType.buy, 1/100, 1, 0, 0, 0, "NN", 0⟩] 50 0
      (by norm_num)).2⟩
